import Mathlib

/-
Verification of the cache variants in 250402-golang-interview/cache.go.

The Go file implements seven concurrent key-value caches over a
map[string]*DiskStatus. Sequentially (no interleaving), every lock
acquisition is a no-op, so each variant is embedded as a pure state
type with Get and Update functions mirroring the critical sections of
the source. A map[string]*DiskStatus is embedded as a total function
String → Option DiskStatus: Go map lookup returns the nil pointer on
an absent key, which we render as none. Machine integers appear only
in the FNV-1a hash, modelled as Nat with explicit reduction mod 2^32;
the Go conversion int(h.Sum32()) is modelled for a 64-bit platform,
where a uint32 value converts to a non-negative int.
-/

namespace GoCache

/-- Embeds the Go struct DiskStatus with fields ID, Health, Temp. -/
structure DiskStatus where
  ID : String
  Health : Int
  Temp : Int
deriving DecidableEq

/-- A Go map[string]*DiskStatus, as a total function; none is the nil
pointer returned on lookup of an absent key. -/
def DiskMap : Type := String → Option DiskStatus

/-- make(map[string]*DiskStatus): the empty map. -/
def DiskMap.empty : DiskMap := fun _ => none

/-- Go map assignment m[id] = status: insert or replace the binding. -/
def DiskMap.insert (m : DiskMap) (id : String) (status : DiskStatus) : DiskMap :=
  fun q => if q = id then some status else m q

/-- UTF-8 encoding of one Unicode code point, as h.Write([]byte(id))
sees it in Go (Go strings are UTF-8 byte sequences). -/
def utf8Bytes (c : Nat) : List Nat :=
  if c < 128 then [c]
  else if c < 2048 then [192 ||| (c >>> 6), 128 ||| (c &&& 63)]
  else if c < 65536 then
    [224 ||| (c >>> 12), 128 ||| ((c >>> 6) &&& 63), 128 ||| (c &&& 63)]
  else
    [240 ||| (c >>> 18), 128 ||| ((c >>> 12) &&& 63),
     128 ||| ((c >>> 6) &&& 63), 128 ||| (c &&& 63)]

/-- The byte sequence []byte(id) of a Go string. -/
def stringBytes (s : String) : List Nat :=
  (s.data.map (fun c => utf8Bytes c.toNat)).flatten

/-- fnv.New32a followed by Write(bytes) and Sum32: the 32-bit FNV-1a
hash, offset basis 2166136261, prime 16777619, arithmetic mod 2^32. -/
def fnv32a (bytes : List Nat) : Nat :=
  bytes.foldl (fun h b => ((h ^^^ b) * 16777619) % 4294967296) 2166136261

/-! ### 1. Basic Mutex Cache -/

/-- Embeds MutexCache; the sync.Mutex serializes and is a sequential no-op. -/
structure MutexCache where
  disks : DiskMap

/-- NewMutexCache. -/
def NewMutexCache : MutexCache := ⟨DiskMap.empty⟩

/-- MutexCache.Get: return c.disks[id] under the lock. -/
def MutexCache.Get (c : MutexCache) (id : String) : Option DiskStatus :=
  c.disks id

/-- MutexCache.Update: c.disks[id] = status under the lock. -/
def MutexCache.Update (c : MutexCache) (id : String) (status : DiskStatus) : MutexCache :=
  ⟨c.disks.insert id status⟩

/-! ### 2. RWMutex Cache -/

/-- Embeds RWMutexCache; the sync.RWMutex is a sequential no-op. -/
structure RWMutexCache where
  disks : DiskMap

/-- NewRWMutexCache. -/
def NewRWMutexCache : RWMutexCache := ⟨DiskMap.empty⟩

/-- RWMutexCache.Get: return c.disks[id] under the read lock. -/
def RWMutexCache.Get (c : RWMutexCache) (id : String) : Option DiskStatus :=
  c.disks id

/-- RWMutexCache.Update: c.disks[id] = status under the write lock. -/
def RWMutexCache.Update (c : RWMutexCache) (id : String) (status : DiskStatus) : RWMutexCache :=
  ⟨c.disks.insert id status⟩

/-! ### 3. Sharded Lock Cache -/

/-- const ShardCount = 32. -/
def ShardCount : Nat := 32

/-- Embeds ShardedCache: an array of ShardCount shards, each an
independently locked map (locks are sequential no-ops). -/
structure ShardedCache where
  shards : Fin ShardCount → DiskMap

/-- NewShardedCache: every shard starts as an empty map. -/
def NewShardedCache : ShardedCache := ⟨fun _ => DiskMap.empty⟩

/-- ShardedCache.getShard: int(fnv32a(id)) % ShardCount. The receiver
is unused in the source, so the embedding drops it. -/
def ShardedCache.getShard (id : String) : Nat :=
  fnv32a (stringBytes id) % ShardCount

/-- The shard index as a Fin, for indexing the shard array. -/
def ShardedCache.shardIdx (id : String) : Fin ShardCount :=
  ⟨ShardedCache.getShard id, Nat.mod_lt _ (by decide)⟩

/-- ShardedCache.Get: look up id in its shard. -/
def ShardedCache.Get (c : ShardedCache) (id : String) : Option DiskStatus :=
  c.shards (ShardedCache.shardIdx id) id

/-- ShardedCache.Update: insert into the shard selected by the id;
other shards are untouched. -/
def ShardedCache.Update (c : ShardedCache) (id : String) (status : DiskStatus) : ShardedCache :=
  ⟨fun j => if j = ShardedCache.shardIdx id then (c.shards j).insert id status else c.shards j⟩

/-! ### 4. sync.Map Cache -/

/-- Embeds SyncMapCache; sync.Map behaves per key as an atomic
load/store cell, sequentially a plain map. -/
structure SyncMapCache where
  disks : DiskMap

/-- NewSyncMapCache. -/
def NewSyncMapCache : SyncMapCache := ⟨DiskMap.empty⟩

/-- SyncMapCache.Get: Load(id); if not ok return nil, else the value. -/
def SyncMapCache.Get (c : SyncMapCache) (id : String) : Option DiskStatus :=
  match c.disks id with
  | none => none
  | some v => some v

/-- SyncMapCache.Update: Store(id, status). -/
def SyncMapCache.Update (c : SyncMapCache) (id : String) (status : DiskStatus) : SyncMapCache :=
  ⟨c.disks.insert id status⟩

/-! ### 5. Spinlock Cache -/

/-- Embeds SpinLockCache; the CAS spin loop acquires an exclusive
lock, sequentially a no-op around the same critical sections. -/
structure SpinLockCache where
  disks : DiskMap

/-- NewSpinLockCache. -/
def NewSpinLockCache : SpinLockCache := ⟨DiskMap.empty⟩

/-- SpinLockCache.Get: spin-acquire, read c.disks[id], release. -/
def SpinLockCache.Get (c : SpinLockCache) (id : String) : Option DiskStatus :=
  c.disks id

/-- SpinLockCache.Update: spin-acquire, c.disks[id] = status, release. -/
def SpinLockCache.Update (c : SpinLockCache) (id : String) (status : DiskStatus) : SpinLockCache :=
  ⟨c.disks.insert id status⟩

/-! ### 6. Copy-on-Write Cache -/

/-- The body of COWCache.Update after loading the old snapshot:
allocate a new map, copy every binding of old, then set new[id] =
status. Functionally this is DiskMap.insert on the snapshot; the old
snapshot value is untouched. HybridCache.UpdateCold uses the same
path on the cold tier. -/
def cowCopyInsert (old : DiskMap) (id : String) (status : DiskStatus) : DiskMap :=
  old.insert id status

/-- Embeds COWCache: disks is the atomic.Value holding the current
map snapshot. -/
structure COWCache where
  disks : DiskMap

/-- NewCOWCache: the atomic.Value starts holding an empty map. -/
def NewCOWCache : COWCache := ⟨DiskMap.empty⟩

/-- COWCache.Get: load the current snapshot and look up id, lock-free. -/
def COWCache.Get (c : COWCache) (id : String) : Option DiskStatus :=
  c.disks id

/-- COWCache.Update: load the snapshot, build the copy with id bound
to status, store it as the new snapshot. -/
def COWCache.Update (c : COWCache) (id : String) (status : DiskStatus) : COWCache :=
  ⟨cowCopyInsert c.disks id status⟩

/-! ### 7. Hybrid Cache (Sharded + COW) -/

/-- Embeds HybridCache: 32 hot shards plus a cold COW snapshot. -/
structure HybridCache where
  hot : Fin 32 → DiskMap
  cold : DiskMap

/-- NewHybridCache: empty hot shards and an empty cold snapshot. -/
def NewHybridCache : HybridCache := ⟨fun _ => DiskMap.empty, DiskMap.empty⟩

/-- HybridCache.getShard: int(fnv32a(id)) % 32, same computation as
ShardedCache.getShard. -/
def HybridCache.getShard (id : String) : Nat :=
  fnv32a (stringBytes id) % 32

/-- The hot shard index as a Fin. -/
def HybridCache.shardIdx (id : String) : Fin 32 :=
  ⟨HybridCache.getShard id, Nat.mod_lt _ (by decide)⟩

/-- HybridCache.Get: read the hot shard first; a non-nil hit returns
immediately, otherwise fall back to the cold snapshot. -/
def HybridCache.Get (c : HybridCache) (id : String) : Option DiskStatus :=
  match c.hot (HybridCache.shardIdx id) id with
  | some status => some status
  | none => c.cold id

/-- HybridCache.Update: write into the hot shard only. -/
def HybridCache.Update (c : HybridCache) (id : String) (status : DiskStatus) : HybridCache :=
  { c with hot := fun j =>
      if j = HybridCache.shardIdx id then (c.hot j).insert id status else c.hot j }

/-- HybridCache.UpdateCold: apply the copy-on-write path to the cold
snapshot only. -/
def HybridCache.UpdateCold (c : HybridCache) (id : String) (status : DiskStatus) : HybridCache :=
  { c with cold := cowCopyInsert c.cold id status }

/-! ### Sequential driver and reference semantics -/

/-- Apply a sequence of Update operations to a fresh MutexCache, as
the test driver does. -/
def MutexCache.applyAll (ops : List (String × DiskStatus)) : MutexCache :=
  ops.foldl (fun c p => c.Update p.1 p.2) NewMutexCache

/-- Apply a sequence of Update operations to a fresh RWMutexCache. -/
def RWMutexCache.applyAll (ops : List (String × DiskStatus)) : RWMutexCache :=
  ops.foldl (fun c p => c.Update p.1 p.2) NewRWMutexCache

/-- Apply a sequence of Update operations to a fresh ShardedCache. -/
def ShardedCache.applyAll (ops : List (String × DiskStatus)) : ShardedCache :=
  ops.foldl (fun c p => c.Update p.1 p.2) NewShardedCache

/-- Apply a sequence of Update operations to a fresh SyncMapCache. -/
def SyncMapCache.applyAll (ops : List (String × DiskStatus)) : SyncMapCache :=
  ops.foldl (fun c p => c.Update p.1 p.2) NewSyncMapCache

/-- Apply a sequence of Update operations to a fresh SpinLockCache. -/
def SpinLockCache.applyAll (ops : List (String × DiskStatus)) : SpinLockCache :=
  ops.foldl (fun c p => c.Update p.1 p.2) NewSpinLockCache

/-- Apply a sequence of Update operations to a fresh COWCache. -/
def COWCache.applyAll (ops : List (String × DiskStatus)) : COWCache :=
  ops.foldl (fun c p => c.Update p.1 p.2) NewCOWCache

/-- Apply a sequence of Update operations (hot path) to a fresh
HybridCache. -/
def HybridCache.applyAll (ops : List (String × DiskStatus)) : HybridCache :=
  ops.foldl (fun c p => c.Update p.1 p.2) NewHybridCache

/-- Modelled from the spec: the contract mapping of string identifier
to status record that every variant implements, obtained by playing
the same Update sequence into a plain map. -/
def specRun (ops : List (String × DiskStatus)) : DiskMap :=
  ops.foldl (fun m p => m.insert p.1 p.2) DiskMap.empty

/-- The most recently written record for a key in a sequence of
updates: the last pair of the sequence whose first component is the
key, if any. -/
def lastWrite (ops : List (String × DiskStatus)) (k : String) : Option DiskStatus :=
  (ops.reverse.find? (fun p => p.1 == k)).map Prod.snd

/-! ### Interleaving model of the unsynchronized COW update path

COWCache.Update (and HybridCache.UpdateCold) is two atomic accesses
to the atomic.Value separated by local copy work: a Load of the
current snapshot, then a Store of the copied-and-updated map. N
concurrent writers to the same key k with values vs are modelled by
letting a schedule interleave these atomic steps arbitrarily. -/

/-- State of N concurrent COW writers: the shared atomic.Value
snapshot, the base snapshot privately loaded by each writer (none before
its Load), and whether each writer has executed its Store. -/
structure COWRun (n : Nat) where
  shared : DiskMap
  loaded : Fin n → Option DiskMap
  stored : Fin n → Bool

/-- One atomic step of writer i: its first step executes
old := c.disks.Load(); its second executes c.disks.Store(new) where
new is the copy of its loaded base with k bound to its value; a
finished writer does nothing. -/
def cowStep (k : String) {n : Nat} (vs : Fin n → DiskStatus) (s : COWRun n) (i : Fin n) :
    COWRun n :=
  match s.loaded i with
  | none => { s with loaded := fun j => if j = i then some s.shared else s.loaded j }
  | some m =>
    if s.stored i then s
    else { s with
      shared := cowCopyInsert m k (vs i),
      stored := fun j => if j = i then true else s.stored j }

/-- Run a schedule of writer steps from an initial shared snapshot. -/
def cowRun (k : String) {n : Nat} (vs : Fin n → DiskStatus) (init : DiskMap)
    (sched : List (Fin n)) : COWRun n :=
  sched.foldl (cowStep k vs) ⟨init, fun _ => none, fun _ => false⟩

/-- A concrete record used to instantiate theorems, mirroring the
test fixture DiskStatus{ID: "disk-1", Health: 100, Temp: 45}. -/
def disk1 : DiskStatus := ⟨"disk-1", 100, 45⟩

/-- A second concrete record with a different id. -/
def disk0 : DiskStatus := ⟨"disk-0", 90, 50⟩

/-! ### Basic lemmas about the map embedding -/

theorem DiskMap.insert_apply (m : DiskMap) (id : String) (v : DiskStatus) (k : String) :
    m.insert id v k = if k = id then some v else m k := rfl

theorem DiskMap.insert_self (m : DiskMap) (id : String) (v : DiskStatus) :
    m.insert id v id = some v := if_pos rfl

theorem DiskMap.insert_ne (m : DiskMap) (id : String) (v : DiskStatus) (k : String)
    (h : k ≠ id) : m.insert id v k = m k := if_neg h

/-! ### Update-then-Get characterization, one lemma per variant -/

theorem mutex_Get_Update (c : MutexCache) (i : String) (v : DiskStatus) (k : String) :
    (c.Update i v).Get k = if k = i then some v else c.Get k := rfl

theorem RWmutex_Get_Update (c : RWMutexCache) (i : String) (v : DiskStatus) (k : String) :
    (c.Update i v).Get k = if k = i then some v else c.Get k := rfl

theorem syncMap_Get_eq (c : SyncMapCache) (k : String) : c.Get k = c.disks k := by
  unfold SyncMapCache.Get
  cases c.disks k <;> rfl

theorem syncMap_Get_Update (c : SyncMapCache) (i : String) (v : DiskStatus) (k : String) :
    (c.Update i v).Get k = if k = i then some v else c.Get k := by
  rw [syncMap_Get_eq, syncMap_Get_eq]
  rfl

theorem spinLock_Get_Update (c : SpinLockCache) (i : String) (v : DiskStatus) (k : String) :
    (c.Update i v).Get k = if k = i then some v else c.Get k := rfl

theorem cow_Get_Update (c : COWCache) (i : String) (v : DiskStatus) (k : String) :
    (c.Update i v).Get k = if k = i then some v else c.Get k := rfl

theorem sharded_Get_Update (c : ShardedCache) (i : String) (v : DiskStatus) (k : String) :
    (c.Update i v).Get k = if k = i then some v else c.Get k := by
  show (if ShardedCache.shardIdx k = ShardedCache.shardIdx i
      then (c.shards (ShardedCache.shardIdx k)).insert i v
      else c.shards (ShardedCache.shardIdx k)) k
    = if k = i then some v else c.shards (ShardedCache.shardIdx k) k
  by_cases hs : ShardedCache.shardIdx k = ShardedCache.shardIdx i
  · rw [if_pos hs]
    rfl
  · have hk : k ≠ i := fun he => hs (by rw [he])
    rw [if_neg hs, if_neg hk]

theorem hybrid_Get_eq (c : HybridCache) (k : String) :
    c.Get k = match c.hot (HybridCache.shardIdx k) k with
      | some status => some status
      | none => c.cold k := rfl

theorem hybrid_Update_hot_apply (c : HybridCache) (i : String) (v : DiskStatus)
    (k : String) :
    (c.Update i v).hot (HybridCache.shardIdx k) k =
      if k = i then some v else c.hot (HybridCache.shardIdx k) k := by
  show (if HybridCache.shardIdx k = HybridCache.shardIdx i
      then (c.hot (HybridCache.shardIdx k)).insert i v
      else c.hot (HybridCache.shardIdx k)) k
    = if k = i then some v else c.hot (HybridCache.shardIdx k) k
  by_cases hs : HybridCache.shardIdx k = HybridCache.shardIdx i
  · rw [if_pos hs]
    rfl
  · have hk : k ≠ i := fun he => hs (by rw [he])
    rw [if_neg hs, if_neg hk]

theorem hybrid_Update_cold (c : HybridCache) (i : String) (v : DiskStatus) :
    (c.Update i v).cold = c.cold := rfl

theorem hybrid_Get_Update (c : HybridCache) (i : String) (v : DiskStatus) (k : String) :
    (c.Update i v).Get k = if k = i then some v else c.Get k := by
  rw [hybrid_Get_eq, hybrid_Get_eq, hybrid_Update_hot_apply,
    hybrid_Update_cold]
  by_cases hk : k = i
  · rw [if_pos hk, if_pos hk]
  · rw [if_neg hk, if_neg hk]

/-! ### Every variant refines the reference mapping -/

/-- Any state type whose Update-then-Get behaves like map insertion
tracks the plain map under a fold of updates. -/
theorem get_foldl_eq {σ : Type} (upd : σ → String → DiskStatus → σ)
    (get : σ → String → Option DiskStatus)
    (h : ∀ s i v k, get (upd s i v) k = if k = i then some v else get s k)
    (ops : List (String × DiskStatus)) :
    ∀ (s : σ) (k : String),
      get (ops.foldl (fun t p => upd t p.1 p.2) s) k =
        ops.foldl (fun m p => DiskMap.insert m p.1 p.2) (get s) k := by
  induction ops with
  | nil => intro s k; rfl
  | cons p ops ih =>
    intro s k
    have hfun : get (upd s p.1 p.2) = DiskMap.insert (get s) p.1 p.2 := by
      funext q
      rw [h]
      rfl
    rw [List.foldl_cons, List.foldl_cons, ih, hfun]

theorem mutex_applyAll_Get (ops : List (String × DiskStatus)) (k : String) :
    (MutexCache.applyAll ops).Get k = specRun ops k :=
  get_foldl_eq MutexCache.Update MutexCache.Get mutex_Get_Update ops NewMutexCache k

theorem RWmutex_applyAll_Get (ops : List (String × DiskStatus)) (k : String) :
    (RWMutexCache.applyAll ops).Get k = specRun ops k :=
  get_foldl_eq RWMutexCache.Update RWMutexCache.Get RWmutex_Get_Update ops
    NewRWMutexCache k

theorem sharded_applyAll_Get (ops : List (String × DiskStatus)) (k : String) :
    (ShardedCache.applyAll ops).Get k = specRun ops k :=
  get_foldl_eq ShardedCache.Update ShardedCache.Get sharded_Get_Update ops
    NewShardedCache k

theorem syncMap_applyAll_Get (ops : List (String × DiskStatus)) (k : String) :
    (SyncMapCache.applyAll ops).Get k = specRun ops k := by
  have h := get_foldl_eq SyncMapCache.Update SyncMapCache.Get syncMap_Get_Update ops
    NewSyncMapCache k
  rw [SyncMapCache.applyAll, h]
  have hempty : SyncMapCache.Get NewSyncMapCache = DiskMap.empty := by
    funext q
    rw [syncMap_Get_eq]
    rfl
  rw [hempty]
  rfl

theorem spinLock_applyAll_Get (ops : List (String × DiskStatus)) (k : String) :
    (SpinLockCache.applyAll ops).Get k = specRun ops k :=
  get_foldl_eq SpinLockCache.Update SpinLockCache.Get spinLock_Get_Update ops
    NewSpinLockCache k

theorem cow_applyAll_Get (ops : List (String × DiskStatus)) (k : String) :
    (COWCache.applyAll ops).Get k = specRun ops k :=
  get_foldl_eq COWCache.Update COWCache.Get cow_Get_Update ops NewCOWCache k

theorem hybrid_applyAll_Get (ops : List (String × DiskStatus)) (k : String) :
    (HybridCache.applyAll ops).Get k = specRun ops k := by
  have h := get_foldl_eq HybridCache.Update HybridCache.Get hybrid_Get_Update ops
    NewHybridCache k
  rw [HybridCache.applyAll, h]
  have hempty : HybridCache.Get NewHybridCache = DiskMap.empty := by
    funext q
    rfl
  rw [hempty]
  rfl

/-! ### The reference mapping keeps exactly the last write per key -/

theorem specRun_eq_lastWrite (ops : List (String × DiskStatus)) (k : String) :
    specRun ops k = lastWrite ops k := by
  induction ops using List.reverseRecOn with
  | nil => rfl
  | append_singleton l p ih =>
    rw [specRun, List.foldl_append]
    rw [lastWrite, List.reverse_append]
    by_cases h : p.1 = k
    · rw [List.foldl_cons, List.foldl_nil]
      rw [DiskMap.insert_apply, if_pos h.symm]
      rw [List.reverse_cons, List.reverse_nil, List.nil_append, List.cons_append,
        List.nil_append, List.find?_cons_of_pos _ (by simp [h])]
      rfl
    · rw [List.foldl_cons, List.foldl_nil]
      rw [DiskMap.insert_apply, if_neg (fun he => h he.symm)]
      rw [List.reverse_cons, List.reverse_nil, List.nil_append, List.cons_append,
        List.nil_append, List.find?_cons_of_neg _ (by simp [h])]
      exact ih

theorem specRun_not_mem_aux (ops : List (String × DiskStatus)) :
    ∀ (m : DiskMap) (k : String), k ∉ ops.map Prod.fst →
      ops.foldl (fun t p => DiskMap.insert t p.1 p.2) m k = m k := by
  induction ops with
  | nil => intro m k _; rfl
  | cons p ops ih =>
    intro m k hk
    rw [List.map_cons] at hk
    have hne : k ≠ p.1 := fun he => hk (by rw [he]; exact List.mem_cons_self _ _)
    have hnm : k ∉ ops.map Prod.fst := fun hm => hk (List.mem_cons_of_mem _ hm)
    rw [List.foldl_cons, ih _ k hnm, DiskMap.insert_ne _ _ _ _ hne]

theorem specRun_not_mem (ops : List (String × DiskStatus)) (k : String)
    (h : k ∉ ops.map Prod.fst) : specRun ops k = none :=
  specRun_not_mem_aux ops DiskMap.empty k h

/-! ### Lemmas about the concurrent COW update model -/

theorem cowStep_integrity (k : String) {n : Nat} (vs : Fin n → DiskStatus) (s : COWRun n)
    (i : Fin n)
    (h : (∃ i0, s.stored i0 = true) → ∃ j, s.shared k = some (vs j)) :
    (∃ i0, (cowStep k vs s i).stored i0 = true) →
      ∃ j, (cowStep k vs s i).shared k = some (vs j) := by
  cases hl : s.loaded i with
  | none =>
    have hc : cowStep k vs s i
        = { s with loaded := fun j => if j = i then some s.shared else s.loaded j } := by
      simp [cowStep, hl]
    rw [hc]
    exact h
  | some m =>
    by_cases hst : s.stored i = true
    · have hc : cowStep k vs s i = s := by
        simp [cowStep, hl, hst]
      rw [hc]
      exact h
    · have hc : cowStep k vs s i
          = { s with shared := cowCopyInsert m k (vs i),
                     stored := fun j => if j = i then true else s.stored j } := by
        simp [cowStep, hl, hst]
      rw [hc]
      exact fun _ => ⟨i, DiskMap.insert_self m k (vs i)⟩

theorem cowRun_integrity_aux (k : String) {n : Nat} (vs : Fin n → DiskStatus)
    (sched : List (Fin n)) :
    ∀ s : COWRun n,
      ((∃ i, s.stored i = true) → ∃ j, s.shared k = some (vs j)) →
      (∃ i, (sched.foldl (cowStep k vs) s).stored i = true) →
      ∃ j, (sched.foldl (cowStep k vs) s).shared k = some (vs j) := by
  induction sched with
  | nil => exact fun s h => h
  | cons i sched ih =>
    intro s h
    rw [List.foldl_cons]
    exact ih _ (cowStep_integrity k vs s i h)

theorem cowRun_integrity (k : String) {n : Nat} (vs : Fin n → DiskStatus) (init : DiskMap)
    (sched : List (Fin n)) :
    (∃ i, (cowRun k vs init sched).stored i = true) →
    ∃ j, (cowRun k vs init sched).shared k = some (vs j) :=
  cowRun_integrity_aux k vs sched _ (fun he => absurd he.choose_spec Bool.false_ne_true)

theorem cowRun_lost_update (k : String) (v0 v1 : DiskStatus) (init : DiskMap) :
    (cowRun k (fun i : Fin 2 => if i = 0 then v0 else v1) init [0, 1, 1, 0]).stored 0 = true ∧
    (cowRun k (fun i : Fin 2 => if i = 0 then v0 else v1) init [0, 1, 1, 0]).stored 1 = true ∧
    (cowRun k (fun i : Fin 2 => if i = 0 then v0 else v1) init [0, 1, 1, 0]).shared k
      = some v0 := by
  refine ⟨rfl, rfl, ?_⟩
  show DiskMap.insert init k v0 k = some v0
  exact DiskMap.insert_self init k v0

/-! ### The claims -/

/-- C1: for every cache variant (MutexCache, RWMutexCache,
ShardedCache, SyncMapCache, SpinLockCache, COWCache, HybridCache),
for every key k and record v, a sequential Update(k, v) followed by
Get(k), with no other operations in between, returns v. -/
theorem claim_C1_single_writer :
    (∀ (c : MutexCache) (k : String) (v : DiskStatus), (c.Update k v).Get k = some v) ∧
    (∀ (c : RWMutexCache) (k : String) (v : DiskStatus), (c.Update k v).Get k = some v) ∧
    (∀ (c : ShardedCache) (k : String) (v : DiskStatus), (c.Update k v).Get k = some v) ∧
    (∀ (c : SyncMapCache) (k : String) (v : DiskStatus), (c.Update k v).Get k = some v) ∧
    (∀ (c : SpinLockCache) (k : String) (v : DiskStatus), (c.Update k v).Get k = some v) ∧
    (∀ (c : COWCache) (k : String) (v : DiskStatus), (c.Update k v).Get k = some v) ∧
    (∀ (c : HybridCache) (k : String) (v : DiskStatus), (c.Update k v).Get k = some v) :=
  ⟨fun c k v => by rw [mutex_Get_Update, if_pos rfl],
   fun c k v => by rw [RWmutex_Get_Update, if_pos rfl],
   fun c k v => by rw [sharded_Get_Update, if_pos rfl],
   fun c k v => by rw [syncMap_Get_Update, if_pos rfl],
   fun c k v => by rw [spinLock_Get_Update, if_pos rfl],
   fun c k v => by rw [cow_Get_Update, if_pos rfl],
   fun c k v => by rw [hybrid_Get_Update, if_pos rfl]⟩

/-- C2: for every cache variant, Update(k, v1); Update(k, v2); Get(k)
returns v2, and after any sequence of Updates the mapping holds at
most one record per id, namely the most recently written one: every
variant and the reference mapping agree with lastWrite. -/
theorem claim_C2_last_write_wins :
    ((∀ (c : MutexCache) (k : String) (v1 v2 : DiskStatus),
        ((c.Update k v1).Update k v2).Get k = some v2) ∧
     (∀ (c : RWMutexCache) (k : String) (v1 v2 : DiskStatus),
        ((c.Update k v1).Update k v2).Get k = some v2) ∧
     (∀ (c : ShardedCache) (k : String) (v1 v2 : DiskStatus),
        ((c.Update k v1).Update k v2).Get k = some v2) ∧
     (∀ (c : SyncMapCache) (k : String) (v1 v2 : DiskStatus),
        ((c.Update k v1).Update k v2).Get k = some v2) ∧
     (∀ (c : SpinLockCache) (k : String) (v1 v2 : DiskStatus),
        ((c.Update k v1).Update k v2).Get k = some v2) ∧
     (∀ (c : COWCache) (k : String) (v1 v2 : DiskStatus),
        ((c.Update k v1).Update k v2).Get k = some v2) ∧
     (∀ (c : HybridCache) (k : String) (v1 v2 : DiskStatus),
        ((c.Update k v1).Update k v2).Get k = some v2)) ∧
    (∀ (ops : List (String × DiskStatus)) (k : String),
      specRun ops k = lastWrite ops k ∧
      (MutexCache.applyAll ops).Get k = lastWrite ops k ∧
      (RWMutexCache.applyAll ops).Get k = lastWrite ops k ∧
      (ShardedCache.applyAll ops).Get k = lastWrite ops k ∧
      (SyncMapCache.applyAll ops).Get k = lastWrite ops k ∧
      (SpinLockCache.applyAll ops).Get k = lastWrite ops k ∧
      (COWCache.applyAll ops).Get k = lastWrite ops k ∧
      (HybridCache.applyAll ops).Get k = lastWrite ops k) :=
  ⟨⟨fun c k v1 v2 => by rw [mutex_Get_Update, if_pos rfl],
    fun c k v1 v2 => by rw [RWmutex_Get_Update, if_pos rfl],
    fun c k v1 v2 => by rw [sharded_Get_Update, if_pos rfl],
    fun c k v1 v2 => by rw [syncMap_Get_Update, if_pos rfl],
    fun c k v1 v2 => by rw [spinLock_Get_Update, if_pos rfl],
    fun c k v1 v2 => by rw [cow_Get_Update, if_pos rfl],
    fun c k v1 v2 => by rw [hybrid_Get_Update, if_pos rfl]⟩,
   fun ops k =>
    ⟨specRun_eq_lastWrite ops k,
     by rw [mutex_applyAll_Get, specRun_eq_lastWrite],
     by rw [RWmutex_applyAll_Get, specRun_eq_lastWrite],
     by rw [sharded_applyAll_Get, specRun_eq_lastWrite],
     by rw [syncMap_applyAll_Get, specRun_eq_lastWrite],
     by rw [spinLock_applyAll_Get, specRun_eq_lastWrite],
     by rw [cow_applyAll_Get, specRun_eq_lastWrite],
     by rw [hybrid_applyAll_Get, specRun_eq_lastWrite]⟩⟩

/-- C3: all seven variants are observationally equivalent under
sequential use of the shared Get/Update contract: after any sequence
of Updates from the fresh state, Get(k) on every variant returns the
value of the same reference mapping, hence the same record or
not-found on all variants. -/
theorem claim_C3_observational_equivalence :
    ∀ (ops : List (String × DiskStatus)) (k : String),
      (MutexCache.applyAll ops).Get k = specRun ops k ∧
      (RWMutexCache.applyAll ops).Get k = specRun ops k ∧
      (ShardedCache.applyAll ops).Get k = specRun ops k ∧
      (SyncMapCache.applyAll ops).Get k = specRun ops k ∧
      (SpinLockCache.applyAll ops).Get k = specRun ops k ∧
      (COWCache.applyAll ops).Get k = specRun ops k ∧
      (HybridCache.applyAll ops).Get k = specRun ops k :=
  fun ops k =>
    ⟨mutex_applyAll_Get ops k, RWmutex_applyAll_Get ops k,
     sharded_applyAll_Get ops k, syncMap_applyAll_Get ops k,
     spinLock_applyAll_Get ops k, cow_applyAll_Get ops k,
     hybrid_applyAll_Get ops k⟩

/-- C4: for every cache variant, Get on a key that was never written,
including any key on a freshly constructed cache, returns the defined
not-found result (none, the nil pointer), never an error. -/
theorem claim_C4_not_found :
    ∀ (ops : List (String × DiskStatus)) (k : String), k ∉ ops.map Prod.fst →
      (MutexCache.applyAll ops).Get k = none ∧
      (RWMutexCache.applyAll ops).Get k = none ∧
      (ShardedCache.applyAll ops).Get k = none ∧
      (SyncMapCache.applyAll ops).Get k = none ∧
      (SpinLockCache.applyAll ops).Get k = none ∧
      (COWCache.applyAll ops).Get k = none ∧
      (HybridCache.applyAll ops).Get k = none := by
  intro ops k h
  have hs : specRun ops k = none := specRun_not_mem ops k h
  exact ⟨by rw [mutex_applyAll_Get, hs], by rw [RWmutex_applyAll_Get, hs],
    by rw [sharded_applyAll_Get, hs], by rw [syncMap_applyAll_Get, hs],
    by rw [spinLock_applyAll_Get, hs], by rw [cow_applyAll_Get, hs],
    by rw [hybrid_applyAll_Get, hs]⟩

/-- C4 witness: after writing only "disk-0", looking up "disk-1"
returns not-found on all seven variants. -/
theorem claim_C4_not_found_witness :
    (MutexCache.applyAll [("disk-0", disk0)]).Get "disk-1" = none ∧
    (RWMutexCache.applyAll [("disk-0", disk0)]).Get "disk-1" = none ∧
    (ShardedCache.applyAll [("disk-0", disk0)]).Get "disk-1" = none ∧
    (SyncMapCache.applyAll [("disk-0", disk0)]).Get "disk-1" = none ∧
    (SpinLockCache.applyAll [("disk-0", disk0)]).Get "disk-1" = none ∧
    (COWCache.applyAll [("disk-0", disk0)]).Get "disk-1" = none ∧
    (HybridCache.applyAll [("disk-0", disk0)]).Get "disk-1" = none :=
  claim_C4_not_found [("disk-0", disk0)] "disk-1" (by decide)

/-- C5: COWCache.Update(id, record) publishes the copy of the old
snapshot with id bound to record: afterwards Get(id) returns the
record, every other key reads exactly as before, and the previous
snapshot value is untouched (the new snapshot is built by
cowCopyInsert from it, never in place). -/
theorem claim_C5_cow_frame :
    ∀ (c : COWCache) (id k : String) (v : DiskStatus),
      (c.Update id v).disks = cowCopyInsert c.disks id v ∧
      (c.Update id v).Get id = some v ∧
      (k ≠ id → (c.Update id v).Get k = c.Get k) := by
  intro c id k v
  refine ⟨rfl, ?_, ?_⟩
  · rw [cow_Get_Update, if_pos rfl]
  · intro h
    rw [cow_Get_Update, if_neg h]

/-- C5 witness: a concrete instance of the COW frame property. -/
theorem claim_C5_cow_frame_witness :
    (NewCOWCache.Update "disk-0" disk0).disks
        = cowCopyInsert NewCOWCache.disks "disk-0" disk0 ∧
    (NewCOWCache.Update "disk-0" disk0).Get "disk-0" = some disk0 ∧
    (NewCOWCache.Update "disk-0" disk0).Get "disk-1" = NewCOWCache.Get "disk-1" :=
  ⟨(claim_C5_cow_frame NewCOWCache "disk-0" "disk-1" disk0).1,
   (claim_C5_cow_frame NewCOWCache "disk-0" "disk-1" disk0).2.1,
   (claim_C5_cow_frame NewCOWCache "disk-0" "disk-1" disk0).2.2 (by decide)⟩

/-- C6: for HybridCache, a sequential Update(id, record) followed by
Get(id) returns the record via the hot tier, for every prior state of
both tiers: the hot shard holds the record, and the Get result is the
same whatever the cold tier holds. -/
theorem claim_C6_hybrid_hot_get :
    ∀ (c : HybridCache) (id : String) (v : DiskStatus),
      (c.Update id v).hot (HybridCache.shardIdx id) id = some v ∧
      (∀ coldAny : DiskMap, HybridCache.Get ⟨(c.Update id v).hot, coldAny⟩ id = some v) ∧
      (c.Update id v).Get id = some v := by
  intro c id v
  have hh : (c.Update id v).hot (HybridCache.shardIdx id) id = some v := by
    rw [hybrid_Update_hot_apply, if_pos rfl]
  refine ⟨hh, fun coldAny => ?_, ?_⟩
  · show (match (c.Update id v).hot (HybridCache.shardIdx id) id with
      | some status => some status
      | none => coldAny id) = some v
    rw [hh]
  · rw [hybrid_Get_Update, if_pos rfl]

/-- C7: HybridCache.Update(id, record) modifies only the hot tier and
leaves the cold snapshot unchanged; UpdateCold(id, record) modifies
only the cold tier and leaves every hot shard unchanged. -/
theorem claim_C7_tier_isolation :
    ∀ (c : HybridCache) (id : String) (v : DiskStatus),
      (c.Update id v).cold = c.cold ∧
      (c.UpdateCold id v).hot = c.hot :=
  fun c id v => ⟨rfl, rfl⟩

/-- C8: shard selection of the sharded and hybrid variants is the
FNV-1a 32-bit hash of the id modulo the shard count 32, a pure
deterministic function of the id alone, identical for both variants
and equal to the index actually used to address the shard array. -/
theorem claim_C8_shard_routing :
    ∀ id : String,
      ShardedCache.getShard id = fnv32a (stringBytes id) % ShardCount ∧
      HybridCache.getShard id = fnv32a (stringBytes id) % 32 ∧
      ShardedCache.getShard id = HybridCache.getShard id ∧
      (ShardedCache.shardIdx id).val = ShardedCache.getShard id ∧
      (HybridCache.shardIdx id).val = HybridCache.getShard id :=
  fun id => ⟨rfl, rfl, rfl, rfl, rfl⟩

/-- C9: when N concurrent writers run the unsynchronized COW update
path on the same key, any interleaving of their load/store steps in
which at least one writer has published leaves one of the N written
records stored, never a corrupted value; and there is an interleaving
of two completed writers in which the record of writer 1 is silently
lost and the record of writer 0 survives. -/
theorem claim_C9_cow_lost_update :
    (∀ (k : String) (n : Nat) (vs : Fin n → DiskStatus) (init : DiskMap)
        (sched : List (Fin n)),
      (∃ i, (cowRun k vs init sched).stored i = true) →
      ∃ j, (cowRun k vs init sched).shared k = some (vs j)) ∧
    (∀ (k : String) (v0 v1 : DiskStatus) (init : DiskMap),
      (cowRun k (fun i : Fin 2 => if i = 0 then v0 else v1) init [0, 1, 1, 0]).stored 0
          = true ∧
      (cowRun k (fun i : Fin 2 => if i = 0 then v0 else v1) init [0, 1, 1, 0]).stored 1
          = true ∧
      (cowRun k (fun i : Fin 2 => if i = 0 then v0 else v1) init [0, 1, 1, 0]).shared k
          = some v0) :=
  ⟨fun k n vs init sched => cowRun_integrity k vs init sched, cowRun_lost_update⟩

/-- C9 witness: one writer that ran to completion from the empty
snapshot leaves its own record stored. -/
theorem claim_C9_cow_lost_update_witness :
    ∃ j, (cowRun "disk-1" (fun _ : Fin 1 => disk1) DiskMap.empty [0, 0]).shared "disk-1"
      = some ((fun _ : Fin 1 => disk1) j) :=
  claim_C9_cow_lost_update.1 "disk-1" 1 (fun _ => disk1) DiskMap.empty [0, 0] ⟨0, rfl⟩

/-- C10: for every string id, the shard index int(fnv32a(id)) % 32
computed by ShardedCache.getShard and HybridCache.getShard lies below
32 (and is a Nat, hence at least 0), so the shard-array accesses of
Get and Update are always in bounds. -/
theorem claim_C10_shard_bounds :
    ∀ id : String,
      ShardedCache.getShard id < 32 ∧ HybridCache.getShard id < 32 :=
  fun id => ⟨Nat.mod_lt _ (by decide), Nat.mod_lt _ (by decide)⟩

end GoCache
